import Mathlib

/-!
Verification development for the ShapeKDTree core of a kd-tree ray-tracing
accelerator (`src/src/librender/skdtree.cpp`).  Floating-point `Float` values
are embedded as exact rationals `ℚ`; machine integers as `Nat`.  Code that
lives in headers outside `src/` (the Havran traversal core, the AABB slab
test, the TriAccel triangle test, the sampler) is modelled from the natural
language specification and marked as such in the doc comments.
-/

set_option maxHeartbeats 1000000
set_option maxRecDepth 8000

/-- Rational 3-vector standing for the single-precision `Point` / `Vector`
types of the source. -/
structure Vec3 where
  x : ℚ
  y : ℚ
  z : ℚ
deriving DecidableEq

/-- Componentwise access by axis index 0, 1, 2 (the source indexes points and
vectors with `operator[]`). -/
def Vec3.nth (v : Vec3) : Fin 3 → ℚ
  | 0 => v.x
  | 1 => v.y
  | 2 => v.z

/-- Embedding of the `Ray` type: origin, direction, componentwise reciprocal
direction (a stored field in the source), and the search interval. -/
structure Ray where
  o : Vec3
  d : Vec3
  dRcp : Vec3
  mint : ℚ
  maxt : ℚ
deriving DecidableEq

/-- Modelled from the spec: the default minimal ray epsilon `Epsilon` of the
core library header (not under `src/`); the claims only use that it is a
fixed positive constant smaller than one, so a small dyadic rational is
chosen to keep concrete evaluation cheap. -/
def Epsilon : ℚ := 1 / 8

/-- Largest absolute value of the three origin coordinates, the quantity
`max(max(|o.x|, |o.y|), |o.z|)` appearing in the adaptive-epsilon code of all
three scalar entry points. -/
def maxAbs3 (v : Vec3) : ℚ := max (max |v.x| |v.y|) |v.z|

/-- Embedding of the adaptive ray epsilon of the full nearest-hit query
`ShapeKDTree::rayIntersect(const Ray&, Intersection&)` (skdtree.cpp lines
366-370): when `ray.mint` equals the default `Epsilon`, it is multiplied by
`max(max(max(|o.x|, |o.y|), |o.z|), Epsilon)`; otherwise it is left alone. -/
def effectiveMinTFull (r : Ray) : ℚ :=
  if r.mint = Epsilon then
    r.mint * max (max (max |r.o.x| |r.o.y|) |r.o.z|) Epsilon
  else r.mint

/-- Embedding of the adaptive ray epsilon of the occlusion query
`ShapeKDTree::rayIntersect(const Ray&)` (skdtree.cpp lines 453-457): as in
the full query but the scale factor is `max(max(|o.x|, |o.y|), |o.z|)`
without the lower clamp by `Epsilon`. -/
def effectiveMinTShadow (r : Ray) : ℚ :=
  if r.mint = Epsilon then
    r.mint * max (max |r.o.x| |r.o.y|) |r.o.z|
  else r.mint

/-- Embedding of the adaptive ray epsilon of the lightweight nearest-hit
variant `ShapeKDTree::rayIntersect(const Ray&, Float&, ConstShapePtr&,
Normal&, Point2&)` (skdtree.cpp lines 394-398): same unclamped factor as the
occlusion query. -/
def effectiveMinTLight (r : Ray) : ℚ :=
  if r.mint = Epsilon then
    r.mint * max (max |r.o.x| |r.o.y|) |r.o.z|
  else r.mint

/-- Axis-aligned bounding box. -/
structure AABB where
  lo : Vec3
  hi : Vec3
deriving DecidableEq

/-- Modelled from the spec: one axis of the slab test of `AABB::rayIntersect`
(core header not under `src/`).  `none` means the ray misses the slab; an
inner `none` bound means the slab does not constrain the parameter on that
side (zero direction component with the origin inside the slab, standing for
an infinite bound). -/
def slabAxis (lo hi o d : ℚ) : Option (Option ℚ × Option ℚ) :=
  if d = 0 then
    if lo ≤ o ∧ o ≤ hi then some (none, none) else none
  else if 0 < d then some (some ((lo - o) / d), some ((hi - o) / d))
  else some (some ((hi - o) / d), some ((lo - o) / d))

/-- Intersection of two optional lower bounds (`none` stands for minus
infinity). -/
def combineLo : Option ℚ → Option ℚ → Option ℚ
  | none, b => b
  | some a, none => some a
  | some a, some b => some (max a b)

/-- Intersection of two optional upper bounds (`none` stands for plus
infinity). -/
def combineHi : Option ℚ → Option ℚ → Option ℚ
  | none, b => b
  | some a, none => some a
  | some a, some b => some (min a b)

/-- Modelled from the spec: `AABB::rayIntersect(ray, mint, maxt)` of the core
header (not under `src/`); per the spec the query must "reject immediately if
the ray misses the tree's bounding box", otherwise it yields the parameter
interval along which the ray is inside the box. -/
def AABB.rayIntersect (b : AABB) (r : Ray) : Option (Option ℚ × Option ℚ) :=
  match slabAxis b.lo.x b.hi.x r.o.x r.d.x,
        slabAxis b.lo.y b.hi.y r.o.y r.d.y,
        slabAxis b.lo.z b.hi.z r.o.z r.d.z with
  | some p1, some p2, some p3 =>
    let lo := combineLo (combineLo p1.1 p2.1) p3.1
    let hi := combineHi (combineHi p1.2 p2.2) p3.2
    match lo, hi with
    | some a, some c => if a ≤ c then some (some a, some c) else none
    | a, c => some (a, c)
  | _, _, _ => none

/-- Embedding of the interval set-up shared by skdtree.cpp lines 365-375: the
box interval is combined with the adaptive minimum (`if (rayMinT > mint)
mint = rayMinT`) and the ray maximum (`if (ray.maxt < maxt) maxt =
ray.maxt`).  The first argument is the already-computed adaptive `rayMinT` of
the respective entry point. -/
def clipInterval (rayMinT rayMaxT : ℚ) (box : Option (Option ℚ × Option ℚ)) :
    Option (ℚ × ℚ) :=
  match box with
  | none => none
  | some (blo, bhi) =>
    let mint := match blo with
      | none => rayMinT
      | some m => if rayMinT > m then rayMinT else m
    let maxt := match bhi with
      | none => rayMaxT
      | some m => if rayMaxT < m then rayMaxT else m
    some (mint, maxt)

/-- Interval handed to the Havran core by the full nearest-hit query, or
`none` when the tree box is missed (skdtree.cpp lines 365-375). -/
def effectiveIntervalFull (b : AABB) (r : Ray) : Option (ℚ × ℚ) :=
  clipInterval (effectiveMinTFull r) r.maxt (b.rayIntersect r)

/-- Interval handed to the Havran core by the occlusion query (skdtree.cpp
lines 452-460). -/
def effectiveIntervalShadow (b : AABB) (r : Ray) : Option (ℚ × ℚ) :=
  clipInterval (effectiveMinTShadow r) r.maxt (b.rayIntersect r)

/-- Sentinel `KNoTriangleFlag` marking an accelerator record that is not a
real triangle (modelled from the spec; the named constant lives in a header
not under `src/` and equals the all-ones 32-bit value). -/
def KNoTriangleFlag : Nat := 4294967295

/-- Embedding of the `TriAccel` record: projection-axis tag `k` (equal to
`KNoTriangleFlag` for sentinel records), owning shape index, local primitive
index, and the triangle geometry the precomputed coefficients are derived
from. -/
structure TriAccel where
  k : Nat
  shapeIndex : Nat
  primIndex : Nat
  v0 : Vec3
  v1 : Vec3
  v2 : Vec3
deriving DecidableEq

/-- Cross product, used to pick the projection axis when loading a triangle
into a `TriAccel` record. -/
def cross (a b : Vec3) : Vec3 :=
  ⟨a.y * b.z - a.z * b.y, a.z * b.x - a.x * b.z, a.x * b.y - a.y * b.x⟩

/-- Componentwise difference of points. -/
def vsub (a b : Vec3) : Vec3 := ⟨a.x - b.x, a.y - b.y, a.z - b.z⟩

/-- Modelled from the spec: `TriAccel::load(v0, v1, v2)` of the missing
triaccel header precomputes coefficients for the fast ray-triangle test; the
tag `k` is the dominant axis of the triangle normal, hence always in
`{0, 1, 2}` and distinct from the sentinel. -/
def TriAccel.load (v0 v1 v2 : Vec3) (shapeIdx primIdx : Nat) : TriAccel :=
  let n := cross (vsub v1 v0) (vsub v2 v0)
  let k := if |n.x| ≥ |n.y| ∧ |n.x| ≥ |n.z| then 0 else if |n.y| ≥ |n.z| then 1 else 2
  ⟨k, shapeIdx, primIdx, v0, v1, v2⟩

/-- Sentinel record emitted for an atomic (non-mesh) shape: the source zeroes
the record and then sets the shape index and `k = KNoTriangleFlag`
(skdtree.cpp lines 100-104). -/
def sentinelRec (shapeIdx : Nat) : TriAccel :=
  ⟨KNoTriangleFlag, shapeIdx, 0, ⟨0, 0, 0⟩, ⟨0, 0, 0⟩, ⟨0, 0, 0⟩⟩

/-- Tree node as described by the spec and used by the traversal code:
either a leaf with a `[primStart, primEnd)` range into the index buffer or an
interior node with a split axis, split coordinate, and two children. -/
inductive KDNode where
  | leaf (primStart primEnd : Nat)
  | inner (axis : Fin 3) (split : ℚ) (left right : KDNode)
deriving DecidableEq

/-- Hit record produced by the scalar traversal: distance, owning shape
index, primitive index and the barycentric surface parameters cached in the
`IntersectionCache`. -/
structure Hit where
  t : ℚ
  shapeIndex : Nat
  primIndex : Nat
  u : ℚ
  v : ℚ
deriving DecidableEq

/-- A built scene as seen by the traversal code: tree bounding box, root
node, index buffer, accelerator table, plus the two primitive tests.
`triHit` stands for the fast closed-form ray-triangle test of the missing
triaccel header (modelled from the spec as an abstract test returning the hit
parameter and barycentrics, to be restricted to the search interval by the
caller); `shapeHit` stands for `Shape::rayIntersect(ray, mint, maxt, t)` of
the external atomic shapes. -/
structure Scene where
  aabb : AABB
  root : KDNode
  indices : List Nat
  triAccel : List TriAccel
  triHit : TriAccel → Ray → Option (ℚ × ℚ × ℚ)
  shapeHit : Nat → Ray → ℚ → ℚ → Option ℚ

/-- Result of testing one accelerator record against a ray restricted to
`[mint, maxt]`: triangle records go through the fast test and are clipped to
the interval, sentinel records delegate to the owning shape's method. -/
def primHit (sc : Scene) (r : Ray) (mint maxt : ℚ) (ta : TriAccel) : Option Hit :=
  if ta.k ≠ KNoTriangleFlag then
    match sc.triHit ta r with
    | some (t, u, v) =>
      if mint ≤ t ∧ t ≤ maxt then some ⟨t, ta.shapeIndex, ta.primIndex, u, v⟩ else none
    | none => none
  else
    match sc.shapeHit ta.shapeIndex r mint maxt with
    | some t => some ⟨t, ta.shapeIndex, ta.primIndex, 0, 0⟩
    | none => none

/-- Keep the nearer of two optional hits (ties keep the first). -/
def nearestHit : Option Hit → Option Hit → Option Hit
  | none, b => b
  | some a, none => some a
  | some a, some b => if b.t < a.t then some b else some a

/-- Modelled from the spec: the stack-based Havran traversal core
`rayIntersectHavran<false>` lives in a kd-tree header that is not under
`src/`; per the spec the nearest-hit query "must find the closest
intersection along the ray within `[mint, maxt]`, or report no hit", so it is
modelled denotationally as the nearest admissible hit over every record of
the accelerator table. -/
def rayIntersectHavran (sc : Scene) (r : Ray) (mint maxt : ℚ) : Option Hit :=
  sc.triAccel.foldl (fun acc ta => nearestHit acc (primHit sc r mint maxt ta)) none

/-- Modelled from the spec: the shadow instantiation `rayIntersectHavran<true>`
(header not under `src/`) need only decide whether any intersection exists in
the interval. -/
def rayIntersectHavranShadow (sc : Scene) (r : Ray) (mint maxt : ℚ) : Bool :=
  sc.triAccel.any (fun ta => (primHit sc r mint maxt ta).isSome)

/-- Embedding of the full nearest-hit query `ShapeKDTree::rayIntersect(const
Ray&, Intersection&)` (skdtree.cpp lines 353-383): box test, adaptive
epsilon, clipping, the strict `maxt > mint` guard, then the Havran core. -/
def rayIntersectFull (sc : Scene) (r : Ray) : Option Hit :=
  match effectiveIntervalFull sc.aabb r with
  | none => none
  | some (mint, maxt) =>
    if maxt > mint then rayIntersectHavran sc r mint maxt else none

/-- Embedding of the occlusion query `ShapeKDTree::rayIntersect(const Ray&)`
(skdtree.cpp lines 448-467). -/
def rayOccluded (sc : Scene) (r : Ray) : Bool :=
  match effectiveIntervalShadow sc.aabb r with
  | none => false
  | some (mint, maxt) =>
    if maxt > mint then rayIntersectHavranShadow sc r mint maxt else false

/-- Reading of claim C2's parenthetical as written: when `ray.mint` equals the
default `Epsilon`, the effective minimum distance is `Epsilon` scaled by the
magnitude of the ray origin coordinates, with no lower clamp on the factor. -/
def claimedAdaptiveMinT (r : Ray) : ℚ :=
  if r.mint = Epsilon then Epsilon * maxAbs3 r.o else r.mint

/-- Concrete ray with origin at the world origin, the default `mint`, and
unit `maxt`; exercises the unclamped adaptive-epsilon path. -/
def rayO0 : Ray := ⟨⟨0, 0, 0⟩, ⟨1, 0, 0⟩, ⟨1, 0, 0⟩, Epsilon, 1⟩

/-- Concrete ray with a caller-supplied custom `mint` different from the
default `Epsilon`. -/
def rayCustom : Ray := ⟨⟨3, 4, 5⟩, ⟨1, 0, 0⟩, ⟨1, 0, 0⟩, 1 / 2, 9⟩

/-- Concrete ray from the origin along `x` with a custom `mint` small enough
to see the near triangle of `sceneNear`. -/
def rayWit : Ray := ⟨⟨0, 0, 0⟩, ⟨1, 0, 0⟩, ⟨1, 0, 0⟩, 1 / 256, 1⟩

/-- Single-triangle scene: the tree box is the cube `[-1,1]^3` and the lone
triangle record hits every ray at parameter `1/128`, which lies strictly
between `0` and `Epsilon * Epsilon`. -/
def sceneNear : Scene where
  aabb := ⟨⟨-1, -1, -1⟩, ⟨1, 1, 1⟩⟩
  root := KDNode.leaf 0 1
  indices := [0]
  triAccel := [⟨0, 0, 0, ⟨0, 0, 0⟩, ⟨1, 0, 0⟩, ⟨0, 1, 0⟩⟩]
  triHit := fun _ _ => some (1 / 128, 0, 0)
  shapeHit := fun _ _ _ _ => none

/-- Shape as seen by the primitive registry: a triangle mesh carrying its
triangle list, or an atomic shape intersected through its own method
(compound shapes are rejected by `addShape` before reaching the registry). -/
inductive ShapeM where
  | mesh (tris : List (Vec3 × Vec3 × Vec3))
  | atomic
deriving DecidableEq

/-- Primitive contribution recorded by `addShape` (skdtree.cpp lines 54-64):
the triangle count for a mesh, exactly one for an atomic shape. -/
def contribution : ShapeM → Nat
  | .mesh tris => tris.length
  | .atomic => 1

/-- Mesh flag pushed to `m_triangleFlag` by `addShape`. -/
def ShapeM.isMesh : ShapeM → Bool
  | .mesh _ => true
  | .atomic => false

/-- Registry state before `build`: the shape map (the constructor seeds it
with a single `0`, skdtree.cpp line 35), the per-shape mesh flags, and the
registered shapes. -/
structure Registry where
  shapeMap : List Nat
  triangleFlag : List Bool
  shapes : List ShapeM
deriving DecidableEq

/-- State of a freshly constructed `ShapeKDTree`. -/
def Registry.init : Registry := ⟨[0], [], []⟩

/-- Embedding of `ShapeKDTree::addShape` (skdtree.cpp lines 50-67): pushes
the contribution onto the shape map, the mesh flag, and the shape itself. -/
def addShape (st : Registry) (s : ShapeM) : Registry :=
  ⟨st.shapeMap ++ [contribution s], st.triangleFlag ++ [s.isMesh], st.shapes ++ [s]⟩

/-- Registry obtained by registering the given shapes in order on a fresh
tree. -/
def registryOf (shapes : List ShapeM) : Registry :=
  shapes.foldl addShape Registry.init

/-- Embedding of the prefix-sum loop of `build` (skdtree.cpp lines 70-71):
`for i in 1.. : m_shapeMap[i] += m_shapeMap[i-1]`, keeping entry 0. -/
def accumFrom : Nat → List Nat → List Nat
  | _, [] => []
  | prev, x :: xs => (prev + x) :: accumFrom (prev + x) xs

/-- Shape map after the prefix-sum loop of `build`. -/
def buildShapeMap : List Nat → List Nat
  | [] => []
  | x :: xs => x :: accumFrom x xs

/-- Records emitted for the triangles of one mesh, starting at local triangle
index `j` (skdtree.cpp lines 89-98). -/
def loadTris (i j : Nat) : List (Vec3 × Vec3 × Vec3) → List TriAccel
  | [] => []
  | tri :: rest => TriAccel.load tri.1 tri.2.1 tri.2.2 i j :: loadTris i (j + 1) rest

/-- Accelerator records emitted by `build` for shape number `i`: one loaded
record per mesh triangle, or a single sentinel record (skdtree.cpp lines
85-105). -/
def triAccelOfShape (i : Nat) : ShapeM → List TriAccel
  | .mesh tris => loadTris i 0 tris
  | .atomic => [sentinelRec i]

/-- Embedding of the accelerator-table fill loop of `build` (skdtree.cpp
lines 82-106), walking shapes in registration order starting at shape index
`i`. -/
def buildTriAccelAux (i : Nat) : List ShapeM → List TriAccel
  | [] => []
  | s :: rest => triAccelOfShape i s ++ buildTriAccelAux (i + 1) rest

/-- Accelerator table produced by `build` for the registered shapes. -/
def buildTriAccel (shapes : List ShapeM) : List TriAccel :=
  buildTriAccelAux 0 shapes

/-- Total primitive count: the sum of all per-shape contributions. -/
def primitiveCount (shapes : List ShapeM) : Nat :=
  (shapes.map contribution).sum

/-- Concrete registration order from the spec scenario: a mesh with two
triangles followed by one atomic shape. -/
def shapes0 : List ShapeM :=
  [ShapeM.mesh [(⟨0, 0, 0⟩, ⟨1, 0, 0⟩, ⟨0, 1, 0⟩), (⟨0, 0, 1⟩, ⟨1, 0, 1⟩, ⟨0, 1, 1⟩)],
   ShapeM.atomic]

/-- Corner-location tag `PLocation` of the source (to-be-determined, inside,
outside), threaded through the ellipsoid recursion. -/
inductive PLocation where
  | ETBD
  | EInside
  | EOutside
deriving DecidableEq

/-- Ellipsoid as consulted by this code: its bounding box `m_aabb` plus a
membership test (the latter is only used to state conservativeness; the
exact triangle test is delegated to the missing triaccel header). -/
structure Ellipsoid where
  aabb : AABB
  isInside : Vec3 → Bool

/-- Modelled from the spec: the sampler consumed by the stochastic query, as
a deterministic stream of floats (for `nextFloat`) and naturals (for
`nextSize`). -/
structure Sampler where
  floats : List ℚ
  sizes : List Nat
deriving DecidableEq

/-- Draw the next uniform float (an exhausted stream yields `0`). -/
def Sampler.nextFloat : Sampler → ℚ × Sampler
  | ⟨[], ss⟩ => (0, ⟨[], ss⟩)
  | ⟨f :: fs, ss⟩ => (f, ⟨fs, ss⟩)

/-- Draw the next size below `n` (the stream value is reduced modulo `n`;
`nextSize 0` yields `0`). -/
def Sampler.nextSize : Sampler → Nat → Nat × Sampler
  | ⟨fs, []⟩, _ => (0, ⟨fs, []⟩)
  | ⟨fs, s :: ss⟩, n => (if n = 0 then 0 else s % n, ⟨fs, ss⟩)

/-- Modelled from the spec: `TriAccel::ellipsoidIntersectTriangle` of the
missing triaccel header, the exact test of one record against the ellipsoid;
it receives the running weight by reference (returned updated on success),
may consume sampler values, and reports the sampled barycentric
coordinates. -/
abbrev EllTest := TriAccel → Ellipsoid → ℚ → Sampler → Option (ℚ × ℚ × ℚ) × Sampler

/-- Cache record filled by the ellipsoid query on success. -/
structure EllCache where
  shapeIndex : Nat
  primIndex : Nat
  u : ℚ
  v : ℚ
deriving DecidableEq

/-- Embedding of `ShapeKDTree::isBoxCuttingEllipsoid` (skdtree.cpp lines
290-306): the live code compares the ellipsoid's bounding box against the
member `m_aabb` — the bounding box of the whole tree — axis by axis; the
corner array `P` and location array `L` of the current node are parameters
but are never consulted. -/
def isBoxCuttingEllipsoid (treeAabb : AABB) (e : Ellipsoid)
    (_P : Fin 8 → Vec3) (_L : Fin 8 → PLocation) : Bool :=
  if e.aabb.hi.x < treeAabb.lo.x then false
  else if e.aabb.lo.x > treeAabb.hi.x then false
  else if e.aabb.hi.y < treeAabb.lo.y then false
  else if e.aabb.lo.y > treeAabb.hi.y then false
  else if e.aabb.hi.z < treeAabb.lo.z then false
  else if e.aabb.lo.z > treeAabb.hi.z then false
  else true

/-- Corner indices whose coordinate along the split axis is replaced by the
split value in `fillPositionsAndLocations` (skdtree.cpp lines 250-277);
`direction = false` fills the left child, `true` the right child.  The entry
`5` in the axis-0 right-child row reproduces the source verbatim (corner `6`
would be the geometrically complete choice). -/
def fillIndices : Fin 3 → Bool → List (Fin 8)
  | 0, false => [1, 3, 5, 7]
  | 0, true => [0, 2, 4, 5]
  | 1, false => [2, 3, 6, 7]
  | 1, true => [0, 1, 4, 5]
  | 2, false => [4, 5, 6, 7]
  | 2, true => [0, 1, 2, 3]

/-- Replace one coordinate of a point. -/
def setAxis (v : Vec3) (axis : Fin 3) (val : ℚ) : Vec3 :=
  match axis with
  | 0 => ⟨val, v.y, v.z⟩
  | 1 => ⟨v.x, val, v.z⟩
  | 2 => ⟨v.x, v.y, val⟩

/-- Embedding of `ShapeKDTree::fillPositionsAndLocations` (skdtree.cpp lines
244-282): copy the corner and location arrays, then clamp the chosen corners
to the split plane and reset their locations to to-be-determined. -/
def fillPositionsAndLocations (P : Fin 8 → Vec3) (L : Fin 8 → PLocation)
    (splitValue : ℚ) (axis : Fin 3) (direction : Bool) :
    (Fin 8 → Vec3) × (Fin 8 → PLocation) :=
  (fun i => if i ∈ fillIndices axis direction then setAxis (P i) axis splitValue else P i,
   fun i => if i ∈ fillIndices axis direction then PLocation.ETBD else L i)

/-- Embedding of `ShapeKDTree::recursiveEllipsoidIntersect` (skdtree.cpp
lines 141-240).  State passed by reference in the source (the weight, the
intersection cache, the sampler) is threaded explicitly: the result is the
success flag, the weight, the cache contents when written, and the advanced
sampler. -/
def recursiveEllipsoidIntersect (sc : Scene) (ellTest : EllTest) (node : KDNode)
    (e : Ellipsoid) (value : ℚ) (P : Fin 8 → Vec3) (L : Fin 8 → PLocation)
    (sampler : Sampler) : Bool × ℚ × Option EllCache × Sampler :=
  if !isBoxCuttingEllipsoid sc.aabb e P L then (false, value, none, sampler)
  else
    match node with
    | .leaf l u =>
      let pickRes := sampler.nextSize (u - l)
      let x := l + pickRes.1
      let primIdx := sc.indices.getD x 0
      let ta := sc.triAccel.getD primIdx (sentinelRec 0)
      match ellTest ta e value pickRes.2 with
      | (some r, s2) =>
        (true, r.1, some ⟨ta.shapeIndex, ta.primIndex, r.2.1, r.2.2⟩, s2)
      | (none, s2) => (false, value / ((u - l : Nat) : ℚ), none, s2)
    | .inner axis split left right =>
      let coinRes := sampler.nextFloat
      if coinRes.1 < 1 / 2 then
        let PL := fillPositionsAndLocations P L split axis false
        match recursiveEllipsoidIntersect sc ellTest left e value PL.1 PL.2 coinRes.2 with
        | (true, v2, cache, s2) => (true, v2 * (1 / 2), cache, s2)
        | (false, v2, cache, s2) => (false, v2, cache, s2)
      else
        let PL := fillPositionsAndLocations P L split axis true
        match recursiveEllipsoidIntersect sc ellTest right e value PL.1 PL.2 coinRes.2 with
        | (true, v2, cache, s2) => (true, v2 * (1 / 2), cache, s2)
        | (false, v2, cache, s2) => (false, v2, cache, s2)

/-- Corners of a box in the layout used by `ellipsoidIntersect` (skdtree.cpp
lines 117-124). -/
def boxCorners (b : AABB) : Fin 8 → Vec3
  | 0 => ⟨b.lo.x, b.lo.y, b.lo.z⟩
  | 1 => ⟨b.hi.x, b.lo.y, b.lo.z⟩
  | 2 => ⟨b.lo.x, b.hi.y, b.lo.z⟩
  | 3 => ⟨b.hi.x, b.hi.y, b.lo.z⟩
  | 4 => ⟨b.lo.x, b.lo.y, b.hi.z⟩
  | 5 => ⟨b.hi.x, b.lo.y, b.hi.z⟩
  | 6 => ⟨b.lo.x, b.hi.y, b.hi.z⟩
  | 7 => ⟨b.hi.x, b.hi.y, b.hi.z⟩

/-- Embedding of the entry point `ShapeKDTree::ellipsoidIntersect`
(skdtree.cpp lines 114-139): seed the corner array with the tree bounding
box, all locations to-be-determined, then recurse from the root. -/
def ellipsoidIntersect (sc : Scene) (ellTest : EllTest) (e : Ellipsoid)
    (value : ℚ) (sampler : Sampler) : Bool × ℚ × Option EllCache × Sampler :=
  recursiveEllipsoidIntersect sc ellTest sc.root e value (boxCorners sc.aabb)
    (fun _ => PLocation.ETBD) sampler

/-- Node box spanned by a corner array (minimum corner 0, maximum corner 7),
the box the per-node rejection test of the specification would consult. -/
def cornerBox (P : Fin 8 → Vec3) : AABB := ⟨P 0, P 7⟩

/-- Closed-box overlap on every axis, the separating-box criterion the
rejection test implements against the tree box. -/
def boxesOverlap (a b : AABB) : Bool :=
  !(b.hi.x < a.lo.x) && !(b.lo.x > a.hi.x) &&
  !(b.hi.y < a.lo.y) && !(b.lo.y > a.hi.y) &&
  !(b.hi.z < a.lo.z) && !(b.lo.z > a.hi.z)

/-- Closed-box membership of a point. -/
def inBox (b : AABB) (p : Vec3) : Bool :=
  b.lo.x ≤ p.x && p.x ≤ b.hi.x &&
  b.lo.y ≤ p.y && p.y ≤ b.hi.y &&
  b.lo.z ≤ p.z && p.z ≤ b.hi.z

/-- Exact ellipsoid test that always succeeds and keeps the weight
unchanged, for concrete runs. -/
def ellTestAlways : EllTest := fun _ _ v s => (some (v, 0, 0), s)

/-- Exact ellipsoid test that always fails, for concrete runs. -/
def ellTestNever : EllTest := fun _ _ _ s => (none, s)

/-- Scene with an interior root over two one-primitive leaves, used by the
ellipsoid-query runs. -/
def sceneEll : Scene where
  aabb := ⟨⟨-1, -1, -1⟩, ⟨1, 1, 1⟩⟩
  root := KDNode.inner 0 0 (KDNode.leaf 0 1) (KDNode.leaf 0 1)
  indices := [0]
  triAccel := [⟨0, 0, 0, ⟨0, 0, 0⟩, ⟨1, 0, 0⟩, ⟨0, 1, 0⟩⟩]
  triHit := fun _ _ => none
  shapeHit := fun _ _ _ _ => none

/-- Scene consisting of one leaf holding two primitives, used by the
ellipsoid leaf-weight runs. -/
def sceneEll2 : Scene where
  aabb := ⟨⟨-1, -1, -1⟩, ⟨1, 1, 1⟩⟩
  root := KDNode.leaf 0 2
  indices := [0, 1]
  triAccel := [⟨0, 0, 0, ⟨0, 0, 0⟩, ⟨1, 0, 0⟩, ⟨0, 1, 0⟩⟩,
               ⟨0, 0, 1, ⟨0, 0, 0⟩, ⟨0, 1, 0⟩, ⟨0, 0, 1⟩⟩]
  triHit := fun _ _ => none
  shapeHit := fun _ _ _ _ => none

/-- Ellipsoid whose bounding box sits strictly on the right of the root
split of `sceneEll` while still overlapping the tree box. -/
def ellRight : Ellipsoid := ⟨⟨⟨1/2, 1/2, 1/2⟩, ⟨7/8, 7/8, 7/8⟩⟩, fun _ => false⟩

/-- Ellipsoid whose bounding box overlaps the tree box of the leaf scene. -/
def ellMid : Ellipsoid := ⟨⟨⟨0, 0, 0⟩, ⟨1/2, 1/2, 1/2⟩⟩, fun _ => false⟩

/-- Ellipsoid whose bounding box is disjoint from every scene box used
here. -/
def ellFar : Ellipsoid := ⟨⟨⟨5, 5, 5⟩, ⟨6, 6, 6⟩⟩, fun _ => false⟩

/-- Sampler whose first coin sends the recursion into the left child and
whose first size pick is the first primitive. -/
def samplerLeft : Sampler := ⟨[0], [0]⟩

/-- Sampler with no coins and a single size pick selecting the first
primitive. -/
def samplerPick0 : Sampler := ⟨[], [0]⟩

/-- Four-lane container mirroring one SSE register of the packet code. -/
structure Lane4 (α : Type) where
  l0 : α
  l1 : α
  l2 : α
  l3 : α
deriving DecidableEq

/-- Lane projection. -/
def Lane4.get {α : Type} (v : Lane4 α) : Fin 4 → α
  | 0 => v.l0
  | 1 => v.l1
  | 2 => v.l2
  | 3 => v.l3

/-- Lane update. -/
def Lane4.set {α : Type} (v : Lane4 α) : Fin 4 → α → Lane4 α
  | 0, a => { v with l0 := a }
  | 1, a => { v with l1 := a }
  | 2, a => { v with l2 := a }
  | 3, a => { v with l3 := a }

/-- Componentwise map, one SSE op. -/
def Lane4.map {α β : Type} (f : α → β) (v : Lane4 α) : Lane4 β :=
  ⟨f v.l0, f v.l1, f v.l2, f v.l3⟩

/-- Componentwise binary map, one SSE op. -/
def Lane4.map2 {α β γ : Type} (f : α → β → γ) (a : Lane4 α) (b : Lane4 β) : Lane4 γ :=
  ⟨f a.l0 b.l0, f a.l1 b.l1, f a.l2 b.l2, f a.l3 b.l3⟩

/-- Movemask-equals-0xF: every lane set. -/
def Lane4.all (v : Lane4 Bool) : Bool := v.l0 && v.l1 && v.l2 && v.l3

/-- Lanewise disjunction. -/
def lane4Or (a b : Lane4 Bool) : Lane4 Bool := Lane4.map2 or a b

/-- Embedding of `RayPacket4`: per-axis lanes of origin, direction,
reciprocal direction, and the per-axis direction-sign bits. -/
structure RayPacket4 where
  o : Fin 3 → Lane4 ℚ
  d : Fin 3 → Lane4 ℚ
  dRcp : Fin 3 → Lane4 ℚ
  signs : Fin 3 → Lane4 Bool

/-- Embedding of `RayInterval4`: per-lane search interval. -/
structure RayInterval4 where
  mint : Lane4 ℚ
  maxt : Lane4 ℚ
deriving DecidableEq

/-- Embedding of `Intersection4`: per-lane hit distance, shape index,
primitive index and barycentrics. -/
structure Intersection4 where
  t : Lane4 ℚ
  shapeIndex : Lane4 Nat
  primIndex : Lane4 Nat
  u : Lane4 ℚ
  v : Lane4 ℚ
deriving DecidableEq

/-- Lane `i`'s ray as reconstructed by the packet code (skdtree.cpp lines
563-569 and 604-612): coordinates from the packet, interval from the caller's
ray interval. -/
def laneRay (packet : RayPacket4) (ri : RayInterval4) (i : Fin 4) : Ray :=
  ⟨⟨(packet.o 0).get i, (packet.o 1).get i, (packet.o 2).get i⟩,
   ⟨(packet.d 0).get i, (packet.d 1).get i, (packet.d 2).get i⟩,
   ⟨(packet.dRcp 0).get i, (packet.dRcp 1).get i, (packet.dRcp 2).get i⟩,
   ri.mint.get i, ri.maxt.get i⟩

/-- Write one lane of the packet result from a scalar hit record, as the
incoherent fallback does (skdtree.cpp lines 616-620). -/
def writeLane (its : Intersection4) (i : Fin 4) (h : Hit) : Intersection4 :=
  { t := its.t.set i h.t
    shapeIndex := its.shapeIndex.set i h.shapeIndex
    primIndex := its.primIndex.set i h.primIndex
    u := its.u.set i h.u
    v := its.v.set i h.v }

/-- The five fields of one lane of a packet result, bundled for comparison
with a scalar hit. -/
def laneOf (its : Intersection4) (i : Fin 4) : Hit :=
  ⟨its.t.get i, its.shapeIndex.get i, its.primIndex.get i,
   its.u.get i, its.v.get i⟩

/-- One lane of the incoherent fallback loop body (skdtree.cpp lines
603-622): rebuild the scalar ray, and when its interval is nonempty and the
Havran core finds a hit, write the lane from the cache. -/
def processLane (sc : Scene) (packet : RayPacket4) (ri : RayInterval4)
    (its : Intersection4) (i : Fin 4) : Intersection4 :=
  let ray := laneRay packet ri i
  if ray.mint < ray.maxt then
    match rayIntersectHavran sc ray ray.mint ray.maxt with
    | some h => writeLane its i h
    | none => its
  else its

/-- Embedding of `ShapeKDTree::rayIntersectPacketIncoherent` (skdtree.cpp
lines 599-623): the scalar engine run on the four lanes in order. -/
def rayIntersectPacketIncoherent (sc : Scene) (packet : RayPacket4)
    (ri : RayInterval4) (its : Intersection4) : Intersection4 :=
  ([0, 1, 2, 3] : List (Fin 4)).foldl (processLane sc packet ri) its

/-- Modelled from the spec: the SSE constants one-minus-epsilon and
one-plus-epsilon used to widen the leaf search window (`SSEConstants` of a
header not under `src/`), with the single-precision machine epsilon. -/
def sseEps : ℚ := 1 / 8388608

/-- One minus the machine epsilon. -/
def om_eps : ℚ := 1 - sseEps

/-- One plus the machine epsilon. -/
def op_eps : ℚ := 1 + sseEps

/-- Stack entry of the coherent traversal (`CoherentKDStackEntry`,
skdtree.cpp lines 472-477): far child and the per-lane interval to resume
with. -/
structure CStackEntry where
  node : KDNode
  mint : Lane4 ℚ
  maxt : Lane4 ℚ

/-- Loop state of the coherent packet traversal, extended with an execution
trace: the number of leaf nodes processed and of primitive records iterated
at leaves. -/
structure PState where
  its : Intersection4
  itsFound : Lane4 Bool
  masked : Lane4 Bool
  mint : Lane4 ℚ
  maxt : Lane4 ℚ
  stack : List CStackEntry
  curr : Option KDNode
  visitedLeaves : Nat
  primTests : Nat

/-- Working state of one leaf's primitive loop. -/
structure LeafState where
  its : Intersection4
  itsFound : Lane4 Bool
  sStart : Lane4 ℚ
  sEnd : Lane4 ℚ

/-- Modelled from the spec: one unmasked lane of the SSE triangle packet
test (`mitsuba::rayIntersectPacket` of the missing triaccel header, called at
skdtree.cpp line 557): a fast-test hit inside the lane's search window
overwrites the lane and raises its found bit. -/
def testTriLane (sc : Scene) (packet : RayPacket4) (ri : RayInterval4)
    (ta : TriAccel) (masked : Lane4 Bool) (sStart sEnd : Lane4 ℚ)
    (acc : Intersection4 × Lane4 Bool) (i : Fin 4) :
    Intersection4 × Lane4 Bool :=
  if masked.get i then acc
  else
    match sc.triHit ta (laneRay packet ri i) with
    | some r =>
      if sStart.get i ≤ r.1 ∧ r.1 ≤ sEnd.get i then
        (writeLane acc.1 i ⟨r.1, ta.shapeIndex, ta.primIndex, r.2.1, r.2.2⟩,
         acc.2.set i true)
      else acc
    | none => acc

/-- One unmasked lane of the sentinel-record path of the coherent leaf loop
(skdtree.cpp lines 559-580): delegate to the owning shape on the lane's
search window; on a hit write the distance, the shape index and
`KNoTriangleFlag` as primitive index (the barycentrics are left alone). -/
def testSentinelLane (sc : Scene) (packet : RayPacket4) (ri : RayInterval4)
    (ta : TriAccel) (masked : Lane4 Bool) (sStart sEnd : Lane4 ℚ)
    (acc : Intersection4 × Lane4 Bool) (i : Fin 4) :
    Intersection4 × Lane4 Bool :=
  if masked.get i then acc
  else
    match sc.shapeHit ta.shapeIndex (laneRay packet ri i) (sStart.get i) (sEnd.get i) with
    | some t =>
      ({ acc.1 with
          t := acc.1.t.set i t
          shapeIndex := acc.1.shapeIndex.set i ta.shapeIndex
          primIndex := acc.1.primIndex.set i KNoTriangleFlag },
       acc.2.set i true)
    | none => acc

/-- One iteration of the coherent leaf loop (skdtree.cpp lines 553-583) for
one index-buffer entry: dispatch on the record tag, then clamp every lane's
search end to the updated hit distances. -/
def processEntry (sc : Scene) (packet : RayPacket4) (ri : RayInterval4)
    (masked : Lane4 Bool) (ls : LeafState) (entry : Nat) : LeafState :=
  let ta := sc.triAccel.getD (sc.indices.getD entry 0) (sentinelRec 0)
  let res :=
    if ta.k ≠ KNoTriangleFlag then
      ([0, 1, 2, 3] : List (Fin 4)).foldl
        (testTriLane sc packet ri ta masked ls.sStart ls.sEnd) (ls.its, ls.itsFound)
    else
      ([0, 1, 2, 3] : List (Fin 4)).foldl
        (testSentinelLane sc packet ri ta masked ls.sStart ls.sEnd) (ls.its, ls.itsFound)
  { its := res.1, itsFound := res.2, sStart := ls.sStart,
    sEnd := Lane4.map2 min ls.sEnd res.1.t }

/-- The coherent leaf handling (skdtree.cpp lines 542-584): for a nonempty
range, widen the node interval by the SSE epsilon factors, clamp it to the
caller's interval, and run every entry of the range; the trace counts the
leaf and its entries. -/
def processLeaf (sc : Scene) (packet : RayPacket4) (ri : RayInterval4)
    (st : PState) (l u : Nat) : PState :=
  if l ≠ u then
    let ls0 : LeafState :=
      { its := st.its, itsFound := st.itsFound,
        sStart := Lane4.map2 max ri.mint (st.mint.map (fun x => x * om_eps)),
        sEnd := Lane4.map2 min ri.maxt (st.maxt.map (fun x => x * op_eps)) }
    let ls := (List.range' l (u - l)).foldl (processEntry sc packet ri st.masked) ls0
    { st with
      its := ls.its
      itsFound := ls.itsFound
      visitedLeaves := st.visitedLeaves + 1
      primTests := st.primTests + (u - l) }
  else { st with visitedLeaves := st.visitedLeaves + 1 }

/-- Push of the far child onto the traversal stack with the far-clipped
intervals, clipping the current lanes to the near side and updating the mask
(skdtree.cpp lines 533-539). -/
def pushFar (st : PState) (far : KDNode) (t : Lane4 ℚ) : PState :=
  let newMaxt := Lane4.map2 min t st.maxt
  { st with
    stack := ⟨far, Lane4.map2 max t st.mint, st.maxt⟩ :: st.stack
    maxt := newMaxt
    masked := lane4Or st.masked
      (Lane4.map2 (fun m mx => decide (m > mx)) st.mint newMaxt) }

/-- The inner descent loop of the coherent traversal (skdtree.cpp lines
506-540): per-lane split-plane parameters, full-mask tests to skip a side,
otherwise push the far child with the far-clipped intervals and descend the
near child with the near-clipped ones.  The near child is the left one when
the packet's shared direction sign on the split axis is positive (lane 0's
sign bit, line 521). -/
def descend (sc : Scene) (packet : RayPacket4) (ri : RayInterval4) :
    KDNode → PState → PState
  | KDNode.leaf l u, st => processLeaf sc packet ri st l u
  | KDNode.inner axis split left right, st =>
    let t : Lane4 ℚ :=
      Lane4.map2 (fun o dR => (split - o) * dR) (packet.o axis) (packet.dRcp axis)
    let startsAfter :=
      lane4Or st.masked (Lane4.map2 (fun tv m => decide (tv < m)) t st.mint)
    let endsBefore :=
      lane4Or st.masked (Lane4.map2 (fun tv mx => decide (tv > mx)) t st.maxt)
    if (packet.signs axis).l0 then
      if startsAfter.all then descend sc packet ri left st
      else if endsBefore.all then descend sc packet ri right st
      else descend sc packet ri right (pushFar st left t)
    else
      if startsAfter.all then descend sc packet ri right st
      else if endsBefore.all then descend sc packet ri left st
      else descend sc packet ri left (pushFar st right t)

/-- One iteration of the outer coherent loop (skdtree.cpp lines 505-596):
descend the current node down to a leaf and process it, then break when every
lane has its found bit set or the stack is exhausted, else pop the next far
child and recompute the mask. -/
def packetStep (sc : Scene) (packet : RayPacket4) (ri : RayInterval4)
    (st : PState) : PState :=
  match st.curr with
  | none => st
  | some node =>
    let st2 := descend sc packet ri node st
    if st2.itsFound.all then { st2 with curr := none }
    else
      match st2.stack with
      | [] => { st2 with curr := none }
      | entry :: rest =>
        { st2 with
          curr := some entry.node
          mint := entry.mint
          maxt := entry.maxt
          stack := rest
          masked := lane4Or st2.itsFound
            (Lane4.map2 (fun m mx => decide (m > mx)) entry.mint entry.maxt) }

/-- Fuelled iteration of the outer coherent loop. -/
def packetLoop (sc : Scene) (packet : RayPacket4) (ri : RayInterval4) :
    Nat → PState → PState
  | 0, st => st
  | fuel + 1, st =>
    match st.curr with
    | none => st
    | some _ => packetLoop sc packet ri fuel (packetStep sc packet ri st)

/-- Per-lane clip of the packet against the tree box combined with the
caller's interval (skdtree.cpp lines 494-498; the SSE box test is modelled
from the spec lane by lane); a lane that misses the box gets an empty
sentinel interval. -/
def laneClip (b : AABB) (packet : RayPacket4) (ri : RayInterval4) (i : Fin 4) :
    ℚ × ℚ :=
  match b.rayIntersect (laneRay packet ri i) with
  | none => (1, 0)
  | some (blo, bhi) =>
    (match blo with
      | none => ri.mint.get i
      | some m => max (ri.mint.get i) m,
     match bhi with
      | none => ri.maxt.get i
      | some m => min (ri.maxt.get i) m)

/-- Initial state of the coherent traversal (skdtree.cpp lines 487-503):
lanes whose clipped interval is empty (including lanes missing the box) are
latched into the found mask; when every lane is empty the loop never
starts. -/
def packetInit (sc : Scene) (packet : RayPacket4) (ri : RayInterval4)
    (its0 : Intersection4) : PState :=
  let mint : Lane4 ℚ :=
    ⟨(laneClip sc.aabb packet ri 0).1, (laneClip sc.aabb packet ri 1).1,
     (laneClip sc.aabb packet ri 2).1, (laneClip sc.aabb packet ri 3).1⟩
  let maxt : Lane4 ℚ :=
    ⟨(laneClip sc.aabb packet ri 0).2, (laneClip sc.aabb packet ri 1).2,
     (laneClip sc.aabb packet ri 2).2, (laneClip sc.aabb packet ri 3).2⟩
  let found := Lane4.map2 (fun m mx => decide (m > mx)) mint maxt
  { its := its0, itsFound := found, masked := found, mint := mint, maxt := maxt,
    stack := [], curr := if found.all then none else some sc.root,
    visitedLeaves := 0, primTests := 0 }

/-- Node count of a tree, a fuel bound for the outer loop. -/
def KDNode.size : KDNode → Nat
  | .leaf _ _ => 1
  | .inner _ _ l r => l.size + r.size + 1

/-- Embedding of `ShapeKDTree::rayIntersectPacket` (skdtree.cpp lines
482-597), the coherent packet query. -/
def rayIntersectPacketC (sc : Scene) (packet : RayPacket4) (ri : RayInterval4)
    (its0 : Intersection4) : Intersection4 :=
  (packetLoop sc packet ri (sc.root.size + 1) (packetInit sc packet ri its0)).its

/-- A lane is resolved in the sense of claim C9: it has found its hit, or
its active interval — the current one and every pending stack entry — has
collapsed to empty. -/
def laneResolved (st : PState) (i : Fin 4) : Bool :=
  st.itsFound.get i ||
    (decide (st.mint.get i > st.maxt.get i) &&
     st.stack.all (fun en => decide (en.mint.get i > en.maxt.get i)))

/-- Every lane resolved in the sense of claim C9. -/
def allResolved (st : PState) : Bool :=
  laneResolved st 0 && laneResolved st 1 && laneResolved st 2 && laneResolved st 3

/-- Scene with a single-triangle leaf inside the box `[-8,8]^3`; the
triangle hit parameter `1/4` lies between the default `Epsilon` and the
adaptive minimum that the scalar query computes for origin `(4,0,0)`. -/
def scenePacket : Scene where
  aabb := ⟨⟨-8, -8, -8⟩, ⟨8, 8, 8⟩⟩
  root := KDNode.leaf 0 1
  indices := [0]
  triAccel := [⟨0, 0, 0, ⟨0, 0, 0⟩, ⟨1, 0, 0⟩, ⟨0, 1, 0⟩⟩]
  triHit := fun _ _ => some (1 / 4, 0, 0)
  shapeHit := fun _ _ _ _ => none

/-- Packet of four identical rays from `(4,0,0)` along `+x`. -/
def packet1 : RayPacket4 where
  o := fun a => if a = 0 then ⟨4, 4, 4, 4⟩ else ⟨0, 0, 0, 0⟩
  d := fun a => if a = 0 then ⟨1, 1, 1, 1⟩ else ⟨0, 0, 0, 0⟩
  dRcp := fun a => if a = 0 then ⟨1, 1, 1, 1⟩ else ⟨0, 0, 0, 0⟩
  signs := fun _ => ⟨false, false, false, false⟩

/-- Interval with the default `Epsilon` as each lane's `mint`. -/
def ri1 : RayInterval4 := ⟨⟨Epsilon, Epsilon, Epsilon, Epsilon⟩, ⟨2, 2, 2, 2⟩⟩

/-- Caller-initialised packet result: huge distances, out-of-range
indices. -/
def its1M : Intersection4 :=
  ⟨⟨1000, 1000, 1000, 1000⟩, ⟨999, 999, 999, 999⟩, ⟨999, 999, 999, 999⟩,
   ⟨0, 0, 0, 0⟩, ⟨0, 0, 0, 0⟩⟩

/-- Scene for the termination run: an interior root split at `x = 5` with a
one-triangle left leaf (hit at `t = 2` for the lanes whose origin has
`y = 0`) and a one-triangle right leaf. -/
def scene9 : Scene where
  aabb := ⟨⟨-8, -8, -8⟩, ⟨8, 8, 8⟩⟩
  root := KDNode.inner 0 5 (KDNode.leaf 0 1) (KDNode.leaf 1 2)
  indices := [0, 1]
  triAccel := [⟨0, 0, 0, ⟨0, 0, 0⟩, ⟨1, 0, 0⟩, ⟨0, 1, 0⟩⟩,
               ⟨0, 0, 1, ⟨0, 0, 0⟩, ⟨0, 1, 0⟩, ⟨0, 0, 1⟩⟩]
  triHit := fun ta r => if ta.primIndex = 0 ∧ r.o.y = 0 then some (2, 0, 0) else none
  shapeHit := fun _ _ _ _ => none

/-- Packet for the termination run: lanes 0 and 1 start at the origin, lanes
2 and 3 at `y = 7`, all along `+x`. -/
def packet9 : RayPacket4 where
  o := fun a => if a = 1 then ⟨0, 0, 7, 7⟩ else ⟨0, 0, 0, 0⟩
  d := fun a => if a = 0 then ⟨1, 1, 1, 1⟩ else ⟨0, 0, 0, 0⟩
  dRcp := fun a => if a = 0 then ⟨1, 1, 1, 1⟩ else ⟨0, 0, 0, 0⟩
  signs := fun _ => ⟨false, false, false, false⟩

/-- Interval for the termination run: lanes 0 and 1 search `[0,10]`, lanes 2
and 3 search `[0,3]` — the latter end strictly before the root split. -/
def ri9 : RayInterval4 := ⟨⟨0, 0, 0, 0⟩, ⟨10, 10, 3, 3⟩⟩

/-- Interval handed to the Havran core by the lightweight nearest-hit
variant (skdtree.cpp lines 393-401). -/
def effectiveIntervalLight (b : AABB) (r : Ray) : Option (ℚ × ℚ) :=
  clipInterval (effectiveMinTLight r) r.maxt (b.rayIntersect r)

/-- Embedding of the lightweight nearest-hit variant
`ShapeKDTree::rayIntersect(const Ray&, Float&, ConstShapePtr&, Normal&,
Point2&)` (skdtree.cpp lines 385-445), up to the cache-level hit record the
caller-visible outputs are derived from. -/
def rayIntersectLight (sc : Scene) (r : Ray) : Option Hit :=
  match effectiveIntervalLight sc.aabb r with
  | none => none
  | some (mint, maxt) =>
    if maxt > mint then rayIntersectHavran sc r mint maxt else none

/-- Process state visible to the traversal entry points: the built scene
structures plus the four global statistics counters (skdtree.cpp lines 47-48
and 479-480), which are file-scope mutable objects shared by every caller. -/
structure KDState where
  scene : Scene
  raysTraced : Nat
  shadowRaysTraced : Nat
  coherentPackets : Nat
  incoherentPackets : Nat

/-- Stateful wrapper of the full nearest-hit query: `++raysTraced`
(skdtree.cpp line 364), then the pure query against the immutable scene. -/
def rayIntersectFullSt (s : KDState) (r : Ray) : Option Hit × KDState :=
  (rayIntersectFull s.scene r, { s with raysTraced := s.raysTraced + 1 })

/-- Stateful wrapper of the lightweight nearest-hit variant:
`++shadowRaysTraced` (skdtree.cpp line 392). -/
def rayIntersectLightSt (s : KDState) (r : Ray) : Option Hit × KDState :=
  (rayIntersectLight s.scene r,
   { s with shadowRaysTraced := s.shadowRaysTraced + 1 })

/-- Stateful wrapper of the occlusion query: `++shadowRaysTraced`
(skdtree.cpp line 451). -/
def rayOccludedSt (s : KDState) (r : Ray) : Bool × KDState :=
  (rayOccluded s.scene r,
   { s with shadowRaysTraced := s.shadowRaysTraced + 1 })

/-- Stateful wrapper of the coherent packet query: `++coherentPackets`
(skdtree.cpp line 490). -/
def rayIntersectPacketSt (s : KDState) (packet : RayPacket4)
    (ri : RayInterval4) (its : Intersection4) : Intersection4 × KDState :=
  (rayIntersectPacketC s.scene packet ri its,
   { s with coherentPackets := s.coherentPackets + 1 })

/-- Stateful wrapper of the incoherent packet fallback:
`++incoherentPackets` (skdtree.cpp line 602). -/
def rayIntersectPacketIncoherentSt (s : KDState) (packet : RayPacket4)
    (ri : RayInterval4) (its : Intersection4) : Intersection4 × KDState :=
  (rayIntersectPacketIncoherent s.scene packet ri its,
   { s with incoherentPackets := s.incoherentPackets + 1 })

/-- A concrete process state with zeroed counters. -/
def kdState0 : KDState := ⟨sceneNear, 0, 0, 0, 0⟩

/-- The same scene with different counter values. -/
def kdState1 : KDState := ⟨sceneNear, 5, 6, 7, 8⟩

/-!  ## Theorems  -/

/-- Claim C2 counterexample: for the ray with origin `(0,0,0)` and
`mint = Epsilon`, the full nearest-hit query does not use `Epsilon` scaled by
the magnitude of the origin coordinates (which would be `0`); it uses
`Epsilon * Epsilon`, because the scale factor is clamped below by `Epsilon`. -/
theorem c2_counterexample :
    effectiveMinTFull rayO0 ≠ claimedAdaptiveMinT rayO0 ∧
    claimedAdaptiveMinT rayO0 = 0 ∧
    effectiveMinTFull rayO0 = Epsilon * Epsilon :=
  of_decide_eq_true (by with_unfolding_all rfl)

/-- Claim C2 (amended): the full nearest-hit query applies the adaptive
epsilon exactly when `ray.mint` equals the default `Epsilon`, and the
effective minimum is then `Epsilon` times the maximum of the absolute origin
coordinates clamped below by `Epsilon`; any other caller-supplied `mint` is
used unchanged, apart from clipping against the tree bounding-box interval. -/
theorem c2_adaptive_epsilon_full (r : Ray) :
    (r.mint = Epsilon →
      effectiveMinTFull r = Epsilon * max (maxAbs3 r.o) Epsilon) ∧
    (r.mint ≠ Epsilon → effectiveMinTFull r = r.mint) ∧
    (r.mint ≠ Epsilon → ∀ b : AABB,
      effectiveIntervalFull b r = clipInterval r.mint r.maxt (b.rayIntersect r)) := by
  refine ⟨fun h => ?_, fun h => ?_, fun h b => ?_⟩
  · unfold effectiveMinTFull maxAbs3
    rw [if_pos h, h]
  · unfold effectiveMinTFull
    rw [if_neg h]
  · unfold effectiveIntervalFull effectiveMinTFull
    rw [if_neg h]

/-- Claim C2 witness: the amended statement applied to the two concrete
rays. -/
theorem c2_adaptive_epsilon_full_witness :
    effectiveMinTFull rayO0 = Epsilon * max (maxAbs3 rayO0.o) Epsilon ∧
    effectiveMinTFull rayCustom = rayCustom.mint := by
  exact ⟨(c2_adaptive_epsilon_full rayO0).1 rfl,
    (c2_adaptive_epsilon_full rayCustom).2.1
      (of_decide_eq_true (by with_unfolding_all rfl))⟩

/-- Claim C10: the three public ray-query entry points compute the adaptive
epsilon differently; when `ray.mint` equals the default `Epsilon` the full
nearest-hit query scales `mint` by the maximum of the absolute origin
coordinates clamped below by `Epsilon`, while the occlusion query and the
lightweight variant scale it with no lower clamp, so with origin `(0,0,0)`
the effective minimum distance of the latter two becomes `0` while the full
query keeps a positive minimum. -/
theorem c10_adaptive_epsilon_variants (r : Ray) (h : r.mint = Epsilon) :
    effectiveMinTFull r = Epsilon * max (maxAbs3 r.o) Epsilon ∧
    effectiveMinTShadow r = Epsilon * maxAbs3 r.o ∧
    effectiveMinTLight r = Epsilon * maxAbs3 r.o ∧
    (r.o = ⟨0, 0, 0⟩ →
      effectiveMinTShadow r = 0 ∧ effectiveMinTLight r = 0 ∧
      0 < effectiveMinTFull r) := by
  refine ⟨?_, ?_, ?_, fun h0 => ⟨?_, ?_, ?_⟩⟩
  · unfold effectiveMinTFull maxAbs3
    rw [if_pos h, h]
  · unfold effectiveMinTShadow maxAbs3
    rw [if_pos h, h]
  · unfold effectiveMinTLight maxAbs3
    rw [if_pos h, h]
  · unfold effectiveMinTShadow
    rw [if_pos h, h, h0]
    norm_num
  · unfold effectiveMinTLight
    rw [if_pos h, h, h0]
    norm_num
  · unfold effectiveMinTFull
    rw [if_pos h, h, h0]
    norm_num [Epsilon]

/-- Claim C10 witness: the statement applied to the concrete ray with origin
`(0,0,0)` and default `mint`. -/
theorem c10_adaptive_epsilon_variants_witness :
    effectiveMinTShadow rayO0 = 0 ∧ 0 < effectiveMinTFull rayO0 := by
  exact ⟨((c10_adaptive_epsilon_variants rayO0 rfl).2.2.2 rfl).1,
    ((c10_adaptive_epsilon_variants rayO0 rfl).2.2.2 rfl).2.2⟩

/-- Folding `nearestHit` finds some hit exactly when the accumulator already
holds one or some list entry tests positive. -/
theorem foldl_nearestHit_isSome (sc : Scene) (r : Ray) (a b : ℚ)
    (l : List TriAccel) (acc : Option Hit) :
    (l.foldl (fun acc ta => nearestHit acc (primHit sc r a b ta)) acc).isSome =
      (acc.isSome || l.any (fun ta => (primHit sc r a b ta).isSome)) := by
  induction l generalizing acc with
  | nil => simp
  | cons hd tl ih =>
    simp only [List.foldl_cons, List.any_cons, ih]
    cases acc <;> cases h : primHit sc r a b hd <;> simp [nearestHit, h]
    split <;> simp

/-- The shadow instantiation of the Havran core succeeds exactly when the
nearest-hit instantiation returns a hit. -/
theorem havranShadow_eq_isSome (sc : Scene) (r : Ray) (a b : ℚ) :
    rayIntersectHavranShadow sc r a b = (rayIntersectHavran sc r a b).isSome := by
  unfold rayIntersectHavranShadow rayIntersectHavran
  rw [foldl_nearestHit_isSome]
  simp

/-- Claim C3 counterexample: over the single-triangle scene `sceneNear`, the
ray from the origin with default `mint` is reported occluded while the full
nearest-hit query reports no hit — the two entry points scale the adaptive
epsilon differently, so the hit at `1/128` falls inside the occlusion
interval but below the full query's clamped minimum. -/
theorem c3_counterexample :
    rayOccluded sceneNear rayO0 = true ∧
    rayIntersectFull sceneNear rayO0 = none :=
  of_decide_eq_true (by with_unfolding_all rfl)

/-- Claim C3 (amended): `occluded(r)` is true iff `intersect(r)` returns a
hit, for every ray whose `mint` differs from the default `Epsilon` or whose
largest absolute origin coordinate is at least `Epsilon` (so that the two
entry points compute the same effective minimum distance); for the remaining
rays the occlusion query may report an occluder that the nearest-hit query
rejects as lying below its clamped minimum distance. -/
theorem c3_occluded_iff_intersect (sc : Scene) (r : Ray)
    (h : r.mint ≠ Epsilon ∨ Epsilon ≤ maxAbs3 r.o) :
    rayOccluded sc r = (rayIntersectFull sc r).isSome := by
  have hmint : effectiveMinTShadow r = effectiveMinTFull r := by
    unfold effectiveMinTShadow effectiveMinTFull
    rcases h with h | h
    · rw [if_neg h, if_neg h]
    · by_cases hmE : r.mint = Epsilon
      · rw [if_pos hmE, if_pos hmE]
        simp only [maxAbs3] at h
        rw [max_eq_left h]
      · rw [if_neg hmE, if_neg hmE]
  unfold rayOccluded rayIntersectFull effectiveIntervalShadow effectiveIntervalFull
  rw [hmint]
  cases hbox : clipInterval (effectiveMinTFull r) r.maxt (sc.aabb.rayIntersect r) with
  | none => simp
  | some p =>
    by_cases hlt : p.2 > p.1
    · simp only [if_pos hlt, havranShadow_eq_isSome]
    · simp only [if_neg hlt, Option.isSome_none]

/-- Claim C3 witness: the amended equivalence applied to the single-triangle
scene and a ray with a custom `mint` that does see the triangle. -/
theorem c3_occluded_iff_intersect_witness :
    rayOccluded sceneNear rayWit = (rayIntersectFull sceneNear rayWit).isSome :=
  c3_occluded_iff_intersect sceneNear rayWit
    (Or.inl (of_decide_eq_true (by with_unfolding_all rfl)))

/-- Folding `addShape` appends one contribution per registered shape to the
shape map. -/
theorem foldl_addShape_shapeMap (shapes : List ShapeM) (st : Registry) :
    (shapes.foldl addShape st).shapeMap = st.shapeMap ++ shapes.map contribution := by
  induction shapes generalizing st with
  | nil => simp
  | cons hd tl ih => simp [addShape, ih, List.append_assoc]

/-- Shape map recorded by registering shapes on a fresh tree: a leading zero
followed by the raw contributions. -/
theorem registryOf_shapeMap (shapes : List ShapeM) :
    (registryOf shapes).shapeMap = 0 :: shapes.map contribution := by
  unfold registryOf
  rw [foldl_addShape_shapeMap]
  rfl

/-- Length of the prefix-sum loop output. -/
theorem accumFrom_length (l : List Nat) (p : Nat) :
    (accumFrom p l).length = l.length := by
  induction l generalizing p with
  | nil => rfl
  | cons x xs ih => simp [accumFrom, ih]

/-- Entry `i` of the prefix-sum loop output is the seed plus the sum of the
first `i + 1` inputs. -/
theorem accumFrom_getElem? (l : List Nat) (p i : Nat) (h : i < l.length) :
    (accumFrom p l)[i]? = some (p + (l.take (i + 1)).sum) := by
  induction l generalizing p i with
  | nil => simp at h
  | cons x xs ih =>
    cases i with
    | zero => simp [accumFrom]
    | succ n =>
      have hn : n < xs.length := Nat.lt_of_succ_lt_succ h
      simp only [accumFrom, List.getElem?_cons_succ]
      rw [ih (p + x) n hn, List.take_succ_cons, List.sum_cons, Nat.add_assoc]

/-- Claim C8: after the prefix-sum loop of `build`, the shape map has one
entry per shape plus the leading zero, entry `i` equals the total number of
primitives contributed by shapes `0 .. i-1`, the sequence is non-decreasing,
and its last entry equals the total primitive count. -/
theorem c8_shape_map_prefix_sum (shapes : List ShapeM) :
    (buildShapeMap (registryOf shapes).shapeMap).length = shapes.length + 1 ∧
    (∀ i, i ≤ shapes.length →
      (buildShapeMap (registryOf shapes).shapeMap)[i]? =
        some (primitiveCount (shapes.take i))) ∧
    (∀ i j x y : Nat, i ≤ j →
      (buildShapeMap (registryOf shapes).shapeMap)[i]? = some x →
      (buildShapeMap (registryOf shapes).shapeMap)[j]? = some y → x ≤ y) ∧
    (buildShapeMap (registryOf shapes).shapeMap).getLast? =
      some (primitiveCount shapes) := by
  rw [registryOf_shapeMap]
  have hlen : (buildShapeMap (0 :: shapes.map contribution)).length =
      shapes.length + 1 := by
    simp [buildShapeMap, accumFrom_length]
  have hget : ∀ i, i ≤ shapes.length →
      (buildShapeMap (0 :: shapes.map contribution))[i]? =
        some (primitiveCount (shapes.take i)) := by
    intro i hi
    cases i with
    | zero => simp [buildShapeMap, primitiveCount]
    | succ n =>
      have hn : n < (shapes.map contribution).length := by
        simpa using Nat.lt_of_succ_le hi
      simp only [buildShapeMap, List.getElem?_cons_succ]
      rw [accumFrom_getElem? _ _ _ hn]
      simp [primitiveCount, List.map_take]
  refine ⟨hlen, hget, ?_, ?_⟩
  · intro i j x y hij hx hy
    have hj : j ≤ shapes.length := by
      by_contra hc
      rw [List.getElem?_eq_none] at hy
      · exact Option.noConfusion hy
      · rw [hlen]
        exact Nat.succ_le_of_lt (Nat.lt_of_not_le hc)
    have hi : i ≤ shapes.length := Nat.le_trans hij hj
    rw [hget i hi] at hx
    rw [hget j hj] at hy
    have hx' : x = primitiveCount (shapes.take i) := (Option.some.injEq _ _).mp hx.symm
    have hy' : y = primitiveCount (shapes.take j) := (Option.some.injEq _ _).mp hy.symm
    subst hx' hy'
    have hsplit := List.take_append_drop i ((shapes.map contribution).take j)
    have htt : ((shapes.map contribution).take j).take i =
        (shapes.map contribution).take i := by
      rw [List.take_take]
      rw [Nat.min_eq_left hij]
    calc primitiveCount (shapes.take i)
        = ((shapes.map contribution).take i).sum := by
          simp [primitiveCount, List.map_take]
      _ ≤ ((shapes.map contribution).take j).sum := by
          conv_rhs => rw [← hsplit]
          rw [List.sum_append, htt]
          exact Nat.le_add_right _ _
      _ = primitiveCount (shapes.take j) := by
          simp [primitiveCount, List.map_take]
  · rw [List.getLast?_eq_getElem?, hlen]
    simp only [Nat.add_sub_cancel]
    rw [hget shapes.length (Nat.le_refl _)]
    simp [primitiveCount]

/-- Claim C8 witness: the statement applied to the spec's two-shape scenario
(a two-triangle mesh followed by an atomic shape), whose shape map after
`build` is `[0, 2, 3]`. -/
theorem c8_shape_map_prefix_sum_witness :
    (buildShapeMap (registryOf shapes0).shapeMap)[1]? = some 2 := by
  have h := (c8_shape_map_prefix_sum shapes0).2.1 1 (by simp [shapes0])
  rw [h]
  rfl

/-- Records of one mesh block, one per triangle. -/
theorem loadTris_length (tris : List (Vec3 × Vec3 × Vec3)) (i j : Nat) :
    (loadTris i j tris).length = tris.length := by
  induction tris generalizing j with
  | nil => rfl
  | cons hd tl ih => simp [loadTris, ih]

/-- Each shape's accelerator block has exactly its contribution as length. -/
theorem triAccelOfShape_length (i : Nat) (s : ShapeM) :
    (triAccelOfShape i s).length = contribution s := by
  cases s with
  | mesh tris => simp [triAccelOfShape, contribution, loadTris_length]
  | atomic => rfl

/-- Table-fill length: one record per primitive. -/
theorem buildTriAccelAux_length (shapes : List ShapeM) (i : Nat) :
    (buildTriAccelAux i shapes).length = primitiveCount shapes := by
  induction shapes generalizing i with
  | nil => rfl
  | cons hd tl ih =>
    simp [buildTriAccelAux, primitiveCount, triAccelOfShape_length, ih]

/-- Every record of a mesh block carries the owning shape index. -/
theorem mem_loadTris_shapeIndex (tris : List (Vec3 × Vec3 × Vec3)) (i j : Nat)
    (ta : TriAccel) (h : ta ∈ loadTris i j tris) : ta.shapeIndex = i := by
  induction tris generalizing j with
  | nil => simp [loadTris] at h
  | cons hd tl ih =>
    simp only [loadTris, List.mem_cons] at h
    rcases h with h | h
    · subst h; rfl
    · exact ih _ h

/-- Every record of a shape's block carries the owning shape index. -/
theorem mem_triAccelOfShape_shapeIndex (i : Nat) (s : ShapeM) (ta : TriAccel)
    (h : ta ∈ triAccelOfShape i s) : ta.shapeIndex = i := by
  cases s with
  | mesh tris => exact mem_loadTris_shapeIndex tris i 0 ta h
  | atomic =>
    simp only [triAccelOfShape, List.mem_singleton] at h
    subst h; rfl

/-- Shape indices in the filled table are bounded by the walked range. -/
theorem mem_buildTriAccelAux_shapeIndex (shapes : List ShapeM) (i : Nat)
    (ta : TriAccel) (h : ta ∈ buildTriAccelAux i shapes) :
    i ≤ ta.shapeIndex ∧ ta.shapeIndex < i + shapes.length := by
  induction shapes generalizing i with
  | nil => simp [buildTriAccelAux] at h
  | cons hd tl ih =>
    simp only [buildTriAccelAux, List.mem_append] at h
    rcases h with h | h
    · rw [mem_triAccelOfShape_shapeIndex i hd ta h]
      refine ⟨Nat.le_refl _, ?_⟩
      simp only [List.length_cons]
      omega
    · rcases ih (i + 1) h with ⟨h1, h2⟩
      simp only [List.length_cons]
      omega

/-- Entry `j` of a mesh block is the loaded record of triangle `j0 + j`. -/
theorem loadTris_getElem? (tris : List (Vec3 × Vec3 × Vec3)) (i j0 j : Nat) :
    (loadTris i j0 tris)[j]? =
      (tris[j]?).map (fun tri => TriAccel.load tri.1 tri.2.1 tri.2.2 i (j0 + j)) := by
  induction tris generalizing j0 j with
  | nil => simp [loadTris]
  | cons hd tl ih =>
    cases j with
    | zero => simp [loadTris]
    | succ n =>
      simp only [loadTris, List.getElem?_cons_succ]
      rw [ih (j0 + 1) n]
      have h : j0 + 1 + n = j0 + (n + 1) := by omega
      rw [h]

/-- Locating shape `n`'s block inside the filled table: it starts at the
total contribution of the shapes before it. -/
theorem buildTriAccelAux_getElem? (s : ShapeM) (j : Nat) (hj : j < contribution s)
    (shapes : List ShapeM) (i n : Nat) (h : shapes[n]? = some s) :
    (buildTriAccelAux i shapes)[primitiveCount (shapes.take n) + j]? =
      (triAccelOfShape (i + n) s)[j]? := by
  induction shapes generalizing i n with
  | nil => simp at h
  | cons hd tl ih =>
    cases n with
    | zero =>
      rw [List.getElem?_cons_zero] at h
      have hs : hd = s := by injection h
      subst hs
      simp only [List.take_zero, primitiveCount, List.map_nil, List.sum_nil,
        Nat.zero_add, buildTriAccelAux]
      rw [List.getElem?_append_left (by rw [triAccelOfShape_length]; exact hj)]
      rw [Nat.add_zero]
    | succ m =>
      rw [List.getElem?_cons_succ] at h
      simp only [List.take_succ_cons, buildTriAccelAux]
      have hpc : primitiveCount (hd :: tl.take m) =
          contribution hd + primitiveCount (tl.take m) := by
        simp [primitiveCount]
      rw [hpc]
      rw [List.getElem?_append_right (by rw [triAccelOfShape_length]; omega)]
      rw [triAccelOfShape_length]
      have hidx : contribution hd + primitiveCount (tl.take m) + j - contribution hd =
          primitiveCount (tl.take m) + j := by omega
      rw [hidx]
      rw [ih (i + 1) m h]
      have harith : i + 1 + m = i + (m + 1) := by omega
      rw [harith]

/-- Claim C7: after `build`, the accelerator table length equals the total
primitive count recorded by `addShape` (the sum of the shape-map
contributions), every entry carries a shape index below the number of
registered shapes, shape `n`'s mesh block holds the loaded record of each
triangle `j` (precomputed data plus the local triangle index) at offset
`primitiveCount (take n) + j`, an atomic shape's single entry at its offset
is the sentinel record, and loaded mesh records never carry the sentinel
marker. -/
theorem c7_accelerator_table (shapes : List ShapeM) :
    (buildTriAccel shapes).length = ((registryOf shapes).shapeMap).sum ∧
    (∀ ta ∈ buildTriAccel shapes, ta.shapeIndex < shapes.length) ∧
    (∀ n j : Nat, ∀ tris, ∀ v, shapes[n]? = some (ShapeM.mesh tris) →
      tris[j]? = some v →
      (buildTriAccel shapes)[primitiveCount (shapes.take n) + j]? =
        some (TriAccel.load v.1 v.2.1 v.2.2 n j)) ∧
    (∀ n : Nat, shapes[n]? = some ShapeM.atomic →
      (buildTriAccel shapes)[primitiveCount (shapes.take n)]? =
        some (sentinelRec n)) ∧
    (∀ v0 v1 v2 : Vec3, ∀ i j : Nat,
      (TriAccel.load v0 v1 v2 i j).k ≠ KNoTriangleFlag) := by
  refine ⟨?_, ?_, ?_, ?_, ?_⟩
  · rw [registryOf_shapeMap]
    simp [buildTriAccel, buildTriAccelAux_length, primitiveCount]
  · intro ta h
    have := mem_buildTriAccelAux_shapeIndex shapes 0 ta h
    omega
  · intro n j tris v hn hv
    have hjlen : j < tris.length := by
      by_contra hc
      rw [List.getElem?_eq_none (Nat.le_of_not_lt hc)] at hv
      exact Option.noConfusion hv
    have hj : j < contribution (ShapeM.mesh tris) := hjlen
    rw [buildTriAccel, buildTriAccelAux_getElem? _ j hj shapes 0 n hn]
    simp only [Nat.zero_add, triAccelOfShape]
    rw [loadTris_getElem?, hv]
    simp
  · intro n hn
    have hj : 0 < contribution ShapeM.atomic := Nat.zero_lt_one
    have := buildTriAccelAux_getElem? _ 0 hj shapes 0 n hn
    rw [Nat.add_zero] at this
    rw [buildTriAccel, this]
    simp [triAccelOfShape]
  · intro v0 v1 v2 i j
    simp only [TriAccel.load, KNoTriangleFlag]
    split
    · simp
    · split <;> simp

/-- Claim C7 witness: the table of the two-shape scenario has three entries
and its last entry is the sentinel record of the atomic shape. -/
theorem c7_accelerator_table_witness :
    (buildTriAccel shapes0).length = ((registryOf shapes0).shapeMap).sum ∧
    (buildTriAccel shapes0)[primitiveCount (shapes0.take 1)]? =
      some (sentinelRec 1) :=
  ⟨(c7_accelerator_table shapes0).1,
   (c7_accelerator_table shapes0).2.2.2.1 1 rfl⟩

/-- The live rejection test equals plain closed-box overlap between the
ellipsoid box and the tree box, for every corner array. -/
theorem isBoxCutting_eq_overlap (t : AABB) (e : Ellipsoid)
    (P : Fin 8 → Vec3) (L : Fin 8 → PLocation) :
    isBoxCuttingEllipsoid t e P L = boxesOverlap t e.aabb := by
  unfold isBoxCuttingEllipsoid boxesOverlap
  split_ifs <;> simp_all

/-- Claim C4 counterexample: descending `sceneEll` toward its left child
with the ellipsoid `ellRight`, the left node's own box (corners clamped to
the split plane) cannot overlap the ellipsoid's bounding box, yet the
subtree is not rejected: the recursion still reaches the left leaf, tests
its primitive and succeeds, because the rejection test consults the tree's
global bounding box instead of the node's. -/
theorem c4_counterexample :
    boxesOverlap (cornerBox (fillPositionsAndLocations (boxCorners sceneEll.aabb)
        (fun _ => PLocation.ETBD) 0 0 false).1) ellRight.aabb = false ∧
    recursiveEllipsoidIntersect sceneEll ellTestAlways sceneEll.root ellRight 1
        (boxCorners sceneEll.aabb) (fun _ => PLocation.ETBD) samplerLeft =
      (true, 1 / 2, some ⟨0, 0, 0, 0⟩, ⟨[], []⟩) :=
  of_decide_eq_true (by with_unfolding_all rfl)

/-- Claim C4 (amended): at every visited node the subtree is rejected when
the tree's global bounding box cannot overlap the ellipsoid's bounding box
(the node's own corner data is passed but never consulted), and the state is
then returned untouched; the rejection is conservative in the claimed
direction: whenever some point lies both in the tree box and in the
ellipsoid's bounding box — in particular at any primitive of the tree that
the ellipsoid intersects — the test never rejects. -/
theorem c4_box_rejection (sc : Scene) (ellTest : EllTest) (node : KDNode)
    (e : Ellipsoid) (value : ℚ) (P : Fin 8 → Vec3) (L : Fin 8 → PLocation)
    (sampler : Sampler) :
    (boxesOverlap sc.aabb e.aabb = false →
      recursiveEllipsoidIntersect sc ellTest node e value P L sampler =
        (false, value, none, sampler)) ∧
    (∀ p : Vec3, inBox sc.aabb p = true → inBox e.aabb p = true →
      isBoxCuttingEllipsoid sc.aabb e P L = true) := by
  constructor
  · intro hov
    unfold recursiveEllipsoidIntersect
    rw [isBoxCutting_eq_overlap, hov]
    simp
  · intro p h1 h2
    rw [isBoxCutting_eq_overlap]
    simp only [inBox, Bool.and_eq_true, decide_eq_true_eq] at h1 h2
    simp only [boxesOverlap, Bool.and_eq_true, Bool.not_eq_true',
      decide_eq_false_iff_not, not_lt]
    obtain ⟨⟨⟨⟨⟨t1, t2⟩, t3⟩, t4⟩, t5⟩, t6⟩ := h1
    obtain ⟨⟨⟨⟨⟨e1, e2⟩, e3⟩, e4⟩, e5⟩, e6⟩ := h2
    refine ⟨⟨⟨⟨⟨?_, ?_⟩, ?_⟩, ?_⟩, ?_⟩, ?_⟩ <;> linarith

/-- Claim C4 witness: the amended rejection statement applied to a concrete
far-away ellipsoid, and the conservativeness statement applied to a point of
`sceneEll` inside `ellMid`'s box. -/
theorem c4_box_rejection_witness :
    recursiveEllipsoidIntersect sceneEll ellTestAlways sceneEll.root ellFar 1
        (boxCorners sceneEll.aabb) (fun _ => PLocation.ETBD) samplerLeft =
      (false, 1, none, samplerLeft) ∧
    isBoxCuttingEllipsoid sceneEll.aabb ellMid (boxCorners sceneEll.aabb)
      (fun _ => PLocation.ETBD) = true :=
  ⟨(c4_box_rejection sceneEll ellTestAlways sceneEll.root ellFar 1
      (boxCorners sceneEll.aabb) (fun _ => PLocation.ETBD) samplerLeft).1
      (of_decide_eq_true (by with_unfolding_all rfl)),
   (c4_box_rejection sceneEll ellTestAlways sceneEll.root ellMid 1
      (boxCorners sceneEll.aabb) (fun _ => PLocation.ETBD) samplerLeft).2
      ⟨0, 0, 0⟩ (of_decide_eq_true (by with_unfolding_all rfl))
      (of_decide_eq_true (by with_unfolding_all rfl))⟩

/-- Claim C5: the leaf code evaluated at the failing input.  A leaf with two
primitives, the sampler picks the first, and its exact ellipsoid test
succeeds leaving the weight unchanged: the query returns success with weight
`1` — not `1/2` as the claimed division by `n` would give.  The second
conjunct shows the division by `n` does execute, but only in the failure
branch, where the returned flag is false and the weight is discarded by the
caller. -/
theorem c5_failing_input :
    recursiveEllipsoidIntersect sceneEll2 ellTestAlways sceneEll2.root ellMid 1
        (boxCorners sceneEll2.aabb) (fun _ => PLocation.ETBD) samplerPick0 =
      (true, 1, some ⟨0, 0, 0, 0⟩, ⟨[], []⟩) ∧
    (recursiveEllipsoidIntersect sceneEll2 ellTestNever sceneEll2.root ellMid 1
        (boxCorners sceneEll2.aabb) (fun _ => PLocation.ETBD) samplerPick0).2.1 =
      1 / 2 :=
  of_decide_eq_true (by with_unfolding_all rfl)

/-- Reading a lane just written. -/
theorem Lane4.get_set_eq {α : Type} (v : Lane4 α) (i : Fin 4) (a : α) :
    (v.set i a).get i = a := by
  fin_cases i <;> simp [Lane4.set, Lane4.get]

/-- Writing one lane leaves the other lanes unchanged. -/
theorem Lane4.get_set_ne {α : Type} (v : Lane4 α) (i j : Fin 4) (a : α)
    (h : j ≠ i) : (v.set j a).get i = v.get i := by
  fin_cases i <;> fin_cases j <;> simp_all [Lane4.set, Lane4.get]

/-- A lane written from a scalar hit reads back as that hit. -/
theorem laneOf_writeLane (its : Intersection4) (i : Fin 4) (h : Hit) :
    laneOf (writeLane its i h) i = h := by
  simp [laneOf, writeLane, Lane4.get_set_eq]

/-- The incoherent loop body for lane `j` does not touch lane `i ≠ j`. -/
theorem laneOf_processLane_ne (sc : Scene) (packet : RayPacket4)
    (ri : RayInterval4) (its : Intersection4) (i j : Fin 4) (hj : j ≠ i) :
    laneOf (processLane sc packet ri its j) i = laneOf its i := by
  simp only [processLane]
  split_ifs with h
  · cases hm : rayIntersectHavran sc (laneRay packet ri j)
        (laneRay packet ri j).mint (laneRay packet ri j).maxt with
    | none => rfl
    | some hh => simp [laneOf, writeLane, Lane4.get_set_ne _ _ _ _ hj]
  · rfl

/-- The incoherent loop body for lane `i` writes lane `i` exactly from the
scalar core's verdict on lane `i`'s ray and interval. -/
theorem laneOf_processLane_eq (sc : Scene) (packet : RayPacket4)
    (ri : RayInterval4) (its : Intersection4) (i : Fin 4) :
    laneOf (processLane sc packet ri its i) i =
      (if (laneRay packet ri i).mint < (laneRay packet ri i).maxt then
        match rayIntersectHavran sc (laneRay packet ri i)
            (laneRay packet ri i).mint (laneRay packet ri i).maxt with
        | some h => h
        | none => laneOf its i
      else laneOf its i) := by
  simp only [processLane]
  split_ifs with h
  · cases hm : rayIntersectHavran sc (laneRay packet ri i)
        (laneRay packet ri i).mint (laneRay packet ri i).maxt with
    | none => simp [hm]
    | some hh => simp [hm, laneOf_writeLane]
  · rfl

/-- Claim C1 counterexample: on `scenePacket` with four identical rays whose
interval starts at the default `Epsilon`, both packet paths report lane 0 hit
at `t = 1/4` while the scalar nearest-hit query on that lane's ray with that
lane's interval reports no hit — the packet paths never apply the adaptive
epsilon (and tree-box preprocessing) of the scalar entry point, which raises
the effective minimum distance of this ray above `1/4`. -/
theorem c1_counterexample :
    (laneOf (rayIntersectPacketIncoherent scenePacket packet1 ri1 its1M) 0).t = 1 / 4 ∧
    (laneOf (rayIntersectPacketC scenePacket packet1 ri1 its1M) 0).t = 1 / 4 ∧
    rayIntersectFull scenePacket (laneRay packet1 ri1 0) = none :=
  of_decide_eq_true (by with_unfolding_all rfl)

/-- Claim C1 (amended): for every 4-ray bundle, the incoherent fallback path
returns in each lane exactly the result of the scalar Havran nearest-hit core
run independently on that lane's ray with that lane's interval: a lane with a
nonempty interval and a hit is overwritten with the hit's distance, shape
index, primitive index and surface parameters, and every other lane keeps the
caller's values.  (Neither packet path applies the adaptive-epsilon and
bounding-box preprocessing of the public scalar entry point, so agreement is
with the traversal core, not with the public scalar query.) -/
theorem c1_incoherent_matches_scalar (sc : Scene) (packet : RayPacket4)
    (ri : RayInterval4) (its : Intersection4) (i : Fin 4) :
    laneOf (rayIntersectPacketIncoherent sc packet ri its) i =
      (if (laneRay packet ri i).mint < (laneRay packet ri i).maxt then
        match rayIntersectHavran sc (laneRay packet ri i)
            (laneRay packet ri i).mint (laneRay packet ri i).maxt with
        | some h => h
        | none => laneOf its i
      else laneOf its i) := by
  simp only [rayIntersectPacketIncoherent, List.foldl_cons, List.foldl_nil]
  have hi := (by decide : ∀ j : Fin 4, j = 0 ∨ j = 1 ∨ j = 2 ∨ j = 3) i
  rcases hi with rfl | rfl | rfl | rfl
  · rw [laneOf_processLane_ne sc packet ri _ 0 3 (by decide),
      laneOf_processLane_ne sc packet ri _ 0 2 (by decide),
      laneOf_processLane_ne sc packet ri _ 0 1 (by decide)]
    exact laneOf_processLane_eq sc packet ri its 0
  · rw [laneOf_processLane_ne sc packet ri _ 1 3 (by decide),
      laneOf_processLane_ne sc packet ri _ 1 2 (by decide),
      laneOf_processLane_eq sc packet ri _ 1,
      laneOf_processLane_ne sc packet ri its 1 0 (by decide)]
  · rw [laneOf_processLane_ne sc packet ri _ 2 3 (by decide),
      laneOf_processLane_eq sc packet ri _ 2,
      laneOf_processLane_ne sc packet ri _ 2 1 (by decide),
      laneOf_processLane_ne sc packet ri its 2 0 (by decide)]
  · rw [laneOf_processLane_eq sc packet ri _ 3,
      laneOf_processLane_ne sc packet ri _ 3 2 (by decide),
      laneOf_processLane_ne sc packet ri _ 3 1 (by decide),
      laneOf_processLane_ne sc packet ri its 3 0 (by decide)]

/-- Folding preserves any Boolean invariant of the accumulator that each
step preserves. -/
theorem foldl_preserve {α β : Type} (f : α → β → α) (p : α → Bool)
    (hf : ∀ a b, p a = true → p (f a b) = true) :
    ∀ (l : List β) (a : α), p a = true → p (l.foldl f a) = true := by
  intro l
  induction l with
  | nil => exact fun _ ha => ha
  | cons hd tl ih => exact fun a ha => ih _ (hf a hd ha)

/-- Setting some lane to true keeps every true lane true. -/
theorem Lane4.get_set_mono (v : Lane4 Bool) (i j : Fin 4)
    (h : v.get i = true) : (v.set j true).get i = true := by
  by_cases hij : j = i
  · subst hij
    rw [Lane4.get_set_eq]
  · rw [Lane4.get_set_ne _ _ _ _ hij]
    exact h

/-- The triangle lane test never clears a found bit. -/
theorem testTriLane_mono (sc : Scene) (packet : RayPacket4) (ri : RayInterval4)
    (ta : TriAccel) (masked : Lane4 Bool) (sStart sEnd : Lane4 ℚ)
    (acc : Intersection4 × Lane4 Bool) (j i : Fin 4)
    (h : acc.2.get i = true) :
    (testTriLane sc packet ri ta masked sStart sEnd acc j).2.get i = true := by
  simp only [testTriLane]
  split
  · exact h
  · split
    · split
      · exact Lane4.get_set_mono _ _ _ h
      · exact h
    · exact h

/-- The sentinel lane test never clears a found bit. -/
theorem testSentinelLane_mono (sc : Scene) (packet : RayPacket4)
    (ri : RayInterval4) (ta : TriAccel) (masked : Lane4 Bool)
    (sStart sEnd : Lane4 ℚ) (acc : Intersection4 × Lane4 Bool) (j i : Fin 4)
    (h : acc.2.get i = true) :
    (testSentinelLane sc packet ri ta masked sStart sEnd acc j).2.get i = true := by
  simp only [testSentinelLane]
  split
  · exact h
  · split
    · exact Lane4.get_set_mono _ _ _ h
    · exact h

/-- One leaf entry never clears a found bit. -/
theorem processEntry_mono (sc : Scene) (packet : RayPacket4) (ri : RayInterval4)
    (masked : Lane4 Bool) (ls : LeafState) (entry : Nat) (i : Fin 4)
    (h : ls.itsFound.get i = true) :
    (processEntry sc packet ri masked ls entry).itsFound.get i = true := by
  simp only [processEntry]
  split
  · apply foldl_preserve _ (fun pr => pr.2.get i)
      (fun a b ha => testTriLane_mono sc packet ri _ masked _ _ a b i ha)
    exact h
  · apply foldl_preserve _ (fun pr => pr.2.get i)
      (fun a b ha => testSentinelLane_mono sc packet ri _ masked _ _ a b i ha)
    exact h

/-- Processing a whole leaf never clears a found bit. -/
theorem processLeaf_mono (sc : Scene) (packet : RayPacket4) (ri : RayInterval4)
    (st : PState) (l u : Nat) (i : Fin 4)
    (h : st.itsFound.get i = true) :
    (processLeaf sc packet ri st l u).itsFound.get i = true := by
  simp only [processLeaf]
  split
  · apply foldl_preserve _ (fun ls => ls.itsFound.get i)
      (fun a b ha => processEntry_mono sc packet ri st.masked a b i ha)
    exact h
  · exact h

/-- The whole descent never clears a found bit. -/
theorem descend_mono (sc : Scene) (packet : RayPacket4) (ri : RayInterval4) :
    ∀ (node : KDNode) (st : PState) (i : Fin 4),
      st.itsFound.get i = true →
      (descend sc packet ri node st).itsFound.get i = true := by
  intro node
  induction node with
  | leaf l u => exact fun st i h => processLeaf_mono sc packet ri st l u i h
  | inner axis split left right ihl ihr =>
    intro st i h
    simp only [descend]
    split_ifs <;> first | exact ihl _ i h | exact ihr _ i h

/-- One outer-loop iteration never clears a found bit. -/
theorem packetStep_mono (sc : Scene) (packet : RayPacket4) (ri : RayInterval4)
    (st : PState) (i : Fin 4) (h : st.itsFound.get i = true) :
    (packetStep sc packet ri st).itsFound.get i = true := by
  unfold packetStep
  rcases hc : st.curr with _ | node
  · exact h
  · have hd := descend_mono sc packet ri node st i h
    dsimp only
    split_ifs with hall
    · exact hd
    · rcases hs : (descend sc packet ri node st).stack with _ | ⟨entry, rest⟩
      · simp only [hs]
        exact hd
      · simp only [hs]
        exact hd

/-- The fuelled loop never clears a found bit. -/
theorem packetLoop_mono (sc : Scene) (packet : RayPacket4) (ri : RayInterval4) :
    ∀ (fuel : Nat) (st : PState) (i : Fin 4),
      st.itsFound.get i = true →
      (packetLoop sc packet ri fuel st).itsFound.get i = true := by
  intro fuel
  induction fuel with
  | zero => exact fun _ _ h => h
  | succ n ih =>
    intro st i h
    unfold packetLoop
    rcases hc : st.curr with _ | node
    · exact h
    · exact ih _ i (packetStep_mono sc packet ri st i h)

/-- When every lane's found bit is set after processing the current node,
the loop iteration clears the cursor: the loop breaks. -/
theorem packetStep_stop (sc : Scene) (packet : RayPacket4) (ri : RayInterval4)
    (st : PState) (node : KDNode) (hc : st.curr = some node)
    (hall : (descend sc packet ri node st).itsFound.all = true) :
    packetStep sc packet ri st = { descend sc packet ri node st with curr := none } := by
  unfold packetStep
  rw [hc]
  simp [hall]

/-- Once the cursor is cleared, no amount of fuel visits anything further:
the state, including its visit counters, is final. -/
theorem packetLoop_none (sc : Scene) (packet : RayPacket4) (ri : RayInterval4)
    (st : PState) (hc : st.curr = none) :
    ∀ fuel, packetLoop sc packet ri fuel st = st := by
  intro fuel
  cases fuel with
  | zero => rfl
  | succ n =>
    unfold packetLoop
    rw [hc]

/-- Claim C9 counterexample: in the concrete run over `scene9`, after the
first loop iteration every lane is resolved in the claim's sense (lanes 0 and
1 have found their hits, lanes 2 and 3 have no remaining nonempty interval —
their only pending interval, the popped far entry, is empty) — yet the next
iteration still visits the right leaf and iterates its primitive record: the
break condition tests only the found bits, not interval collapse. -/
theorem c9_counterexample :
    allResolved (packetStep scene9 packet9 ri9
      (packetInit scene9 packet9 ri9 its1M)) = true ∧
    (packetStep scene9 packet9 ri9
      (packetInit scene9 packet9 ri9 its1M)).visitedLeaves = 1 ∧
    (packetStep scene9 packet9 ri9
      (packetInit scene9 packet9 ri9 its1M)).primTests = 1 ∧
    (packetStep scene9 packet9 ri9 (packetStep scene9 packet9 ri9
      (packetInit scene9 packet9 ri9 its1M))).visitedLeaves = 2 ∧
    (packetStep scene9 packet9 ri9 (packetStep scene9 packet9 ri9
      (packetInit scene9 packet9 ri9 its1M))).primTests = 2 :=
  of_decide_eq_true (by with_unfolding_all rfl)

/-- Claim C9 (amended): the coherent packet loop stops as soon as every lane
has its found bit set (a hit recorded, or an initially empty interval latched
at set-up) or the traversal stack is empty; after the break no further node
is visited and no further primitive iterated (the state is final for any
remaining fuel), and found bits are monotone — a lane that has found its hit
stays found for the rest of the traversal.  A lane whose interval collapses
only during traversal is masked from primitive tests but does not contribute
to the break condition, so nodes can still be visited after every lane is
resolved in the claim's sense. -/
theorem c9_termination (sc : Scene) (packet : RayPacket4) (ri : RayInterval4) :
    (∀ (st : PState) (node : KDNode), st.curr = some node →
      (descend sc packet ri node st).itsFound.all = true →
      packetStep sc packet ri st =
        { descend sc packet ri node st with curr := none }) ∧
    (∀ st : PState, st.curr = none →
      ∀ fuel, packetLoop sc packet ri fuel st = st) ∧
    (∀ (st : PState) (i : Fin 4) (fuel : Nat), st.itsFound.get i = true →
      (packetLoop sc packet ri fuel st).itsFound.get i = true) :=
  ⟨fun st node hc hall => packetStep_stop sc packet ri st node hc hall,
   fun st hc fuel => packetLoop_none sc packet ri st hc fuel,
   fun st i fuel h => packetLoop_mono sc packet ri fuel st i h⟩

/-- Claim C9 witness: the amended statement applied to the concrete
termination run — the state after two iterations has a cleared cursor, so
further fuel changes nothing, and lane 0's found bit persists. -/
theorem c9_termination_witness :
    packetLoop scene9 packet9 ri9 7 (packetStep scene9 packet9 ri9
      (packetStep scene9 packet9 ri9 (packetInit scene9 packet9 ri9 its1M))) =
      packetStep scene9 packet9 ri9 (packetStep scene9 packet9 ri9
        (packetInit scene9 packet9 ri9 its1M)) ∧
    (packetLoop scene9 packet9 ri9 5 (packetStep scene9 packet9 ri9
      (packetInit scene9 packet9 ri9 its1M))).itsFound.get 0 = true :=
  ⟨(c9_termination scene9 packet9 ri9).2.1 _
      (of_decide_eq_true (by with_unfolding_all rfl)) 7,
   (c9_termination scene9 packet9 ri9).2.2 _ 0 5
      (of_decide_eq_true (by with_unfolding_all rfl))⟩

/-- Claim C6 counterexample: a single traversal call does write state shared
between callers — the global statistics counters change across both the
nearest-hit and the occlusion entry points, so a query's writes are not
limited to caller-local scratch and result objects. -/
theorem c6_counterexample :
    (rayIntersectFullSt kdState0 rayO0).2.raysTraced ≠ kdState0.raysTraced ∧
    (rayOccludedSt kdState0 rayO0).2.shadowRaysTraced ≠
      kdState0.shadowRaysTraced ∧
    (rayIntersectPacketIncoherentSt kdState0 packet1 ri1 its1M).2.incoherentPackets ≠
      kdState0.incoherentPackets :=
  of_decide_eq_true (by with_unfolding_all rfl)

/-- Claim C6 (amended): no traversal query mutates the built structures —
the scene (tree nodes, accelerator table, index buffer, shape map) is
unchanged by all five entry points, every result depends only on the scene
and the arguments (never on the counters), and the only shared state a query
writes is the global statistics counter of its kind, which it increments by
one. -/
theorem c6_frame (s s2 : KDState) (r : Ray) (packet : RayPacket4)
    (ri : RayInterval4) (its : Intersection4) :
    (rayIntersectFullSt s r).2.scene = s.scene ∧
    (rayIntersectLightSt s r).2.scene = s.scene ∧
    (rayOccludedSt s r).2.scene = s.scene ∧
    (rayIntersectPacketSt s packet ri its).2.scene = s.scene ∧
    (rayIntersectPacketIncoherentSt s packet ri its).2.scene = s.scene ∧
    (rayIntersectFullSt s r).2 = { s with raysTraced := s.raysTraced + 1 } ∧
    (rayIntersectLightSt s r).2 =
      { s with shadowRaysTraced := s.shadowRaysTraced + 1 } ∧
    (rayOccludedSt s r).2 =
      { s with shadowRaysTraced := s.shadowRaysTraced + 1 } ∧
    (rayIntersectPacketSt s packet ri its).2 =
      { s with coherentPackets := s.coherentPackets + 1 } ∧
    (rayIntersectPacketIncoherentSt s packet ri its).2 =
      { s with incoherentPackets := s.incoherentPackets + 1 } ∧
    (s.scene = s2.scene →
      (rayIntersectFullSt s r).1 = (rayIntersectFullSt s2 r).1 ∧
      (rayOccludedSt s r).1 = (rayOccludedSt s2 r).1 ∧
      (rayIntersectPacketSt s packet ri its).1 =
        (rayIntersectPacketSt s2 packet ri its).1) := by
  refine ⟨rfl, rfl, rfl, rfl, rfl, rfl, rfl, rfl, rfl, rfl, fun h => ⟨?_, ?_, ?_⟩⟩
  · simp [rayIntersectFullSt, h]
  · simp [rayOccludedSt, h]
  · simp [rayIntersectPacketSt, h]

/-- Claim C6 witness: the frame statement applied to two concrete states
sharing the scene but differing in every counter. -/
theorem c6_frame_witness :
    (rayIntersectFullSt kdState0 rayO0).2 =
      { kdState0 with raysTraced := kdState0.raysTraced + 1 } ∧
    (rayIntersectFullSt kdState0 rayO0).1 = (rayIntersectFullSt kdState1 rayO0).1 :=
  ⟨(c6_frame kdState0 kdState1 rayO0 packet1 ri1 its1M).2.2.2.2.2.1,
   ((c6_frame kdState0 kdState1 rayO0 packet1 ri1 its1M).2.2.2.2.2.2.2.2.2.2
      rfl).1⟩
